import Mathlib

/-!
# Verification of `pkg/applier/applierclient.go`

A shallow embedding of the applier client: `NewApplierClient`,
`Client.CreateOrUpdateInPath` and `Client.createOrUpdate`.

The Go code talks to three collaborators that live outside the file:
the controller-runtime `client.Client` (`Get`, `Create`, `Update`),
`controllerutil.SetControllerReference`, and the applier's
`TemplateAssetsInPathUnstructured`.  They are taken as parameters, so every
theorem holds for all of their possible behaviours.  The cluster store is an
explicit state of type `σ` threaded through the write calls, and every
outgoing call is recorded, in order, in a list of `Call`s.
-/

set_option autoImplicit false

namespace Applier

/-! ## Data model -/

/-- The `schema.GroupVersionKind` triple. -/
structure GroupVersionKind where
  Group : String
  Version : String
  Kind : String
  deriving DecidableEq, Repr

/-- The `types.NamespacedName` lookup key. -/
structure NamespacedName where
  Namespace : String
  Name : String
  deriving DecidableEq, Repr

/-- One `metav1.OwnerReference` entry of an object's metadata. -/
structure OwnerReference where
  APIVersion : String
  Kind : String
  Name : String
  UID : String
  Controller : Bool
  BlockOwnerDeletion : Bool
  deriving DecidableEq, Repr

/-- An `unstructured.Unstructured` document: type, metadata and payload. -/
structure Unstructured where
  gvk : GroupVersionKind
  Namespace : String
  Name : String
  OwnerReferences : List OwnerReference
  Data : List (String × String)
  deriving DecidableEq, Repr

/-- Accessor `u.GroupVersionKind()`. -/
def Unstructured.GroupVersionKind (u : Unstructured) : GroupVersionKind := u.gvk

/-- Accessor `u.GetName()`. -/
def Unstructured.GetName (u : Unstructured) : String := u.Name

/-- Accessor `u.GetNamespace()`. -/
def Unstructured.GetNamespace (u : Unstructured) : String := u.Namespace

/-- The key `types.NamespacedName{Name: u.GetName(), Namespace: u.GetNamespace()}`
built on line 111. -/
def Unstructured.key (u : Unstructured) : NamespacedName :=
  { Name := u.GetName, Namespace := u.GetNamespace }

/-- The `metav1.StatusReason` of an API error. -/
inductive StatusReason
  | NotFound
  | AlreadyExists
  | Conflict
  | Forbidden
  | Invalid
  | Timeout
  | Unknown
  deriving DecidableEq, Repr

/-- A Go `error` value as returned by the collaborators. -/
structure Err where
  Reason : StatusReason
  Message : String
  deriving DecidableEq, Repr

/-- The test `errors.IsNotFound(err)`: the error carries the not-found reason. -/
def IsNotFound (e : Err) : Bool :=
  decide (e.Reason = StatusReason.NotFound)

/-- What a Go function of result type `error` yields: `nil`, an error, or a
run-time panic (a call through a nil interface or a nil function value). -/
inductive Ret
  | nil
  | err (e : Err)
  | panic
  deriving DecidableEq, Repr

/-- The `Merger` function type (lines 51-58): from `current` and `new` to
`(future, update)`. -/
abbrev Merger := Unstructured → Unstructured → Unstructured × Bool

/-- The three operations of `client.Client` the file uses, over a store
state `σ`.  `Get` reads: it yields the fetched object or an error.  `Create`
and `Update` yield the store after the call and the call's error, if any. -/
structure StoreClient (σ : Type) where
  Get : σ → GroupVersionKind → NamespacedName → Except Err Unstructured
  Create : σ → Unstructured → σ × Option Err
  Update : σ → Unstructured → σ × Option Err

/-- The two library functions the file calls and does not define:
`controllerutil.SetControllerReference(owner, u, scheme)`, which mutates `u`
in place (here: returns the mutated object) or fails, and the applier method
`TemplateAssetsInPathUnstructured(path, excluded, recursive)`. -/
structure Deps (Owner Scheme Applier : Type) where
  SetControllerReference : Owner → Unstructured → Scheme → Except Err Unstructured
  TemplateAssetsInPathUnstructured :
    Applier → String → List String → Bool → Except Err (List Unstructured)

/-- The `Client` struct (lines 16-27).  `client`, `owner`, `scheme` and
`merger` may each be nil (`none`); `applier` is a pointer value of the
abstract type `Applier`. -/
structure Client (Owner Scheme Applier σ : Type) where
  applier : Applier
  client : Option (StoreClient σ)
  owner : Option Owner
  scheme : Option Scheme
  merger : Option Merger

/-- One outgoing call, with its arguments. -/
inductive Call
  | SetControllerReference (u : Unstructured)
  | Get (gvk : GroupVersionKind) (key : NamespacedName)
  | Create (u : Unstructured)
  | Merger (current new : Unstructured)
  | Update (future : Unstructured)
  deriving DecidableEq, Repr

/-- What one run of `createOrUpdate` leaves behind: the store, the calls it
issued in order, and the value it returned. -/
structure Result (σ : Type) where
  store : σ
  calls : List Call
  ret : Ret

/-- What one run of `CreateOrUpdateInPath` leaves behind: the store, the
resources `createOrUpdate` was invoked on (in order), all calls issued, and
the value returned. -/
structure BatchResult (σ : Type) where
  store : σ
  invoked : List Unstructured
  calls : List Call
  ret : Ret

/-! ## The operations -/

section Operations

variable {Owner Scheme Applier σ : Type}

/-- `NewApplierClient` (lines 35-49): returns the pointer to the new struct
and the error. -/
def NewApplierClient (applier : Applier) (client : Option (StoreClient σ))
    (owner : Option Owner) (scheme : Option Scheme) (merger : Option Merger) :
    Option (Client Owner Scheme Applier σ) × Option Err :=
  (some { applier := applier, client := client, owner := owner,
          scheme := scheme, merger := merger }, none)

/-- Lines 98-105 of `createOrUpdate`: when owner and scheme are both non-nil,
`SetControllerReference` is called on `u`; its error is the step's error.
Yields the calls issued and the object `u` as it stands afterwards. -/
def setControllerRef (d : Deps Owner Scheme Applier) (c : Client Owner Scheme Applier σ)
    (u : Unstructured) : List Call × Except Err Unstructured :=
  match c.owner, c.scheme with
  | some owner, some scheme =>
    match d.SetControllerReference owner u scheme with
    | .error err => ([Call.SetControllerReference u], .error err)
    | .ok u' => ([Call.SetControllerReference u], .ok u')
  | _, _ => ([], .ok u)

/-- Lines 107-144 of `createOrUpdate`: lookup, then create, or merge and
update, for the object `u` as it stands after the controller-reference
step. -/
def lookupAndWrite (c : Client Owner Scheme Applier σ) (s : σ) (u : Unstructured) :
    Result σ :=
  match c.client with
  | none => ⟨s, [], Ret.panic⟩
  | some k =>
    let get := Call.Get u.GroupVersionKind u.key
    match k.Get s u.GroupVersionKind u.key with
    | .error errGet =>
      if IsNotFound errGet then
        match k.Create s u with
        | (s', some err) => ⟨s', [get, Call.Create u], Ret.err err⟩
        | (s', none) => ⟨s', [get, Call.Create u], Ret.nil⟩
      else
        ⟨s, [get], Ret.err errGet⟩
    | .ok current =>
      match c.merger with
      | none => ⟨s, [get], Ret.panic⟩
      | some merger =>
        match merger current u with
        | (future, true) =>
          match k.Update s future with
          | (s', some err) =>
            ⟨s', [get, Call.Merger current u, Call.Update future], Ret.err err⟩
          | (s', none) =>
            ⟨s', [get, Call.Merger current u, Call.Update future], Ret.nil⟩
        | (_, false) => ⟨s, [get, Call.Merger current u], Ret.nil⟩

/-- `Client.createOrUpdate` (lines 92-145). -/
def createOrUpdate (d : Deps Owner Scheme Applier) (c : Client Owner Scheme Applier σ)
    (s : σ) (u : Unstructured) : Result σ :=
  match setControllerRef d c u with
  | (cs, .error err) => ⟨s, cs, Ret.err err⟩
  | (cs, .ok u') =>
    let r := lookupAndWrite c s u'
    ⟨r.store, cs ++ r.calls, r.ret⟩

/-- The `for _, u := range us` loop of `CreateOrUpdateInPath` (lines 82-88). -/
def rangeLoop (d : Deps Owner Scheme Applier) (c : Client Owner Scheme Applier σ) :
    σ → List Unstructured → BatchResult σ
  | s, [] => ⟨s, [], [], Ret.nil⟩
  | s, u :: us =>
    let r := createOrUpdate d c s u
    match r.ret with
    | Ret.nil =>
      let rest := rangeLoop d c r.store us
      ⟨rest.store, u :: rest.invoked, r.calls ++ rest.calls, rest.ret⟩
    | e => ⟨r.store, [u], r.calls, e⟩

/-- `Client.CreateOrUpdateInPath` (lines 68-89). -/
def CreateOrUpdateInPath (d : Deps Owner Scheme Applier)
    (c : Client Owner Scheme Applier σ) (s : σ)
    (path : String) (excluded : List String) (recursive : Bool) : BatchResult σ :=
  match d.TemplateAssetsInPathUnstructured c.applier path excluded recursive with
  | .error err => ⟨s, [], [], Ret.err err⟩
  | .ok us => rangeLoop d c s us

end Operations

/-! ## Observations on a list of calls -/

/-- The arguments of the `Create` calls, in order. -/
def creates : List Call → List Unstructured
  | [] => []
  | Call.Create u :: cs => u :: creates cs
  | _ :: cs => creates cs

/-- The arguments of the `Update` calls, in order. -/
def updates : List Call → List Unstructured
  | [] => []
  | Call.Update u :: cs => u :: updates cs
  | _ :: cs => updates cs

/-- The `desired` (second) arguments of the merger invocations, in order. -/
def mergerDesired : List Call → List Unstructured
  | [] => []
  | Call.Merger _ new :: cs => new :: mergerDesired cs
  | _ :: cs => mergerDesired cs

/-- Whether a call is a write to the store. -/
def Call.isWrite : Call → Bool
  | Call.Create _ => true
  | Call.Update _ => true
  | _ => false

/-- The write calls (`Create` and `Update`), in order. -/
def writes (cs : List Call) : List Call := cs.filter Call.isWrite

/-- Whether a call is a store operation (`Get`, `Create` or `Update`). -/
def Call.isStoreOp : Call → Bool
  | Call.Get _ _ => true
  | Call.Create _ => true
  | Call.Update _ => true
  | _ => false

/-- Whether a call is a merger invocation. -/
def Call.isMerger : Call → Bool
  | Call.Merger _ _ => true
  | _ => false

/-- Whether a call is the controller-reference step. -/
def Call.isSetControllerReference : Call → Bool
  | Call.SetControllerReference _ => true
  | _ => false

section Sequencing

variable {Owner Scheme Applier σ : Type}

/-- The store reached by running `createOrUpdate` on the given resources one
after the other, each on the store the previous one left. -/
def storeAfter (d : Deps Owner Scheme Applier) (c : Client Owner Scheme Applier σ) :
    σ → List Unstructured → σ
  | s, [] => s
  | s, u :: us => storeAfter d c (createOrUpdate d c s u).store us

/-- Every resource of the list, run in order, each on the store the previous
one left, is reconciled by `createOrUpdate` with a nil return. -/
def allReconciled (d : Deps Owner Scheme Applier) (c : Client Owner Scheme Applier σ) :
    σ → List Unstructured → Prop
  | _, [] => True
  | s, u :: us =>
    (createOrUpdate d c s u).ret = Ret.nil ∧ allReconciled d c (createOrUpdate d c s u).store us

end Sequencing

/-! ## Sample collaborators

Concrete collaborators on which the operations can be evaluated: an
in-memory store in the manner of a fake client, a store that refuses every
write, a controller-reference setter, and three mergers. -/

/-- The in-memory store: the list of live objects. -/
abbrev MemStore := List Unstructured

/-- Whether a live object has the given type and key. -/
def hasIdentity (gvk : GroupVersionKind) (key : NamespacedName) (r : Unstructured) : Bool :=
  decide (r.GroupVersionKind = gvk ∧ r.key = key)

/-- In-memory `Get`: the first object with that identity, else a not-found error. -/
def memGet (s : MemStore) (gvk : GroupVersionKind) (key : NamespacedName) :
    Except Err Unstructured :=
  match s.find? (hasIdentity gvk key) with
  | some r => .ok r
  | none => .error ⟨StatusReason.NotFound, "not found"⟩

/-- In-memory `Create`: refuses an identity that is already present. -/
def memCreate (s : MemStore) (u : Unstructured) : MemStore × Option Err :=
  match s.find? (hasIdentity u.GroupVersionKind u.key) with
  | some _ => (s, some ⟨StatusReason.AlreadyExists, "already exists"⟩)
  | none => (u :: s, none)

/-- In-memory `Update`: replaces the object of that identity, which must be present. -/
def memUpdate (s : MemStore) (u : Unstructured) : MemStore × Option Err :=
  match s.find? (hasIdentity u.GroupVersionKind u.key) with
  | some _ =>
    (s.map (fun r => if hasIdentity u.GroupVersionKind u.key r then u else r), none)
  | none => (s, some ⟨StatusReason.NotFound, "not found"⟩)

/-- The in-memory store client. -/
def memClient : StoreClient MemStore :=
  { Get := memGet, Create := memCreate, Update := memUpdate }

/-- A store client that reads like the in-memory one and refuses every write. -/
def readOnlyClient : StoreClient MemStore :=
  { Get := memGet
    Create := fun s _ => (s, some ⟨StatusReason.Forbidden, "forbidden"⟩)
    Update := fun s _ => (s, some ⟨StatusReason.Forbidden, "forbidden"⟩) }

/-- A store client whose every lookup is refused. -/
def forbiddenClient : StoreClient MemStore :=
  { Get := fun _ _ _ => .error ⟨StatusReason.Forbidden, "forbidden"⟩
    Create := memCreate
    Update := memUpdate }

/-- A sample owner object: its namespace, name and UID. -/
structure SampleOwner where
  Namespace : String
  Name : String
  UID : String
  deriving DecidableEq, Repr

/-- A sample scheme: the group-version-kind it resolves owners to, if any. -/
abbrev SampleScheme := Option GroupVersionKind

/-- The controller reference a sample owner gives rise to. -/
def sampleRef (o : SampleOwner) (gvk : GroupVersionKind) : OwnerReference :=
  { APIVersion := gvk.Group ++ "/" ++ gvk.Version, Kind := gvk.Kind, Name := o.Name,
    UID := o.UID, Controller := true, BlockOwnerDeletion := true }

/-- A sample controller-reference setter: fails when the scheme does not
resolve the owner or when a namespaced owner lives in another namespace than
the object; otherwise puts the owner's reference in place of any reference
with the same UID. -/
def sampleSetControllerReference (o : SampleOwner) (u : Unstructured)
    (sch : SampleScheme) : Except Err Unstructured :=
  match sch with
  | none => .error ⟨StatusReason.Unknown, "no kind is registered for the owner"⟩
  | some gvk =>
    if o.Namespace ≠ "" ∧ o.Namespace ≠ u.Namespace then
      .error ⟨StatusReason.Invalid, "cross-namespace owner references are disallowed"⟩
    else
      .ok { u with OwnerReferences :=
              sampleRef o gvk :: u.OwnerReferences.filter (fun r => decide (r.UID ≠ o.UID)) }

/-- Sample dependencies: the sample setter, and a template step that yields
no resources. -/
def sampleDeps : Deps SampleOwner SampleScheme Unit :=
  { SetControllerReference := sampleSetControllerReference
    TemplateAssetsInPathUnstructured := fun _ _ _ _ => .ok [] }

/-- Sample dependencies whose template step yields the given resources. -/
def sampleDepsWith (us : List Unstructured) : Deps SampleOwner SampleScheme Unit :=
  { SetControllerReference := sampleSetControllerReference
    TemplateAssetsInPathUnstructured := fun _ _ _ _ => .ok us }

/-- The overwrite merger: the desired object, and an update exactly when it
differs from the live one. -/
def replaceIfDifferent : Merger :=
  fun current new => (new, decide (current ≠ new))

/-- A merger that keeps the live object's metadata and takes the desired
payload; it asks for an update exactly when the live object differs from the
desired one. -/
def keepLiveMetadata : Merger :=
  fun current new => ({ current with Data := new.Data }, decide (current ≠ new))

/-- A merger that never asks for an update. -/
def neverUpdate : Merger :=
  fun current _ => (current, false)

/-- Sample object: ConfigMap `cfg-a` in `ns1` with the given payload value. -/
def cfgA (v : String) : Unstructured :=
  { gvk := ⟨"", "v1", "ConfigMap"⟩, Namespace := "ns1", Name := "cfg-a",
    OwnerReferences := [], Data := [("k", v)] }

/-- Sample object: ConfigMap `cfg-b` in `ns1`. -/
def cfgB : Unstructured :=
  { gvk := ⟨"", "v1", "ConfigMap"⟩, Namespace := "ns1", Name := "cfg-b",
    OwnerReferences := [], Data := [("k", "b")] }

/-- Sample object: ConfigMap `cfg-c` in `ns1`. -/
def cfgC : Unstructured :=
  { gvk := ⟨"", "v1", "ConfigMap"⟩, Namespace := "ns1", Name := "cfg-c",
    OwnerReferences := [], Data := [("k", "c")] }

/-- Sample object: ConfigMap `cfg-x` in `ns2`. -/
def cfgX : Unstructured :=
  { gvk := ⟨"", "v1", "ConfigMap"⟩, Namespace := "ns2", Name := "cfg-x",
    OwnerReferences := [], Data := [("k", "x")] }

/-- Sample live object: `cfg-a` with payload `v1`, owned by another controller. -/
def cfgALive : Unstructured :=
  { cfgA "v1" with
    OwnerReferences := [{ APIVersion := "apps/v1", Kind := "Deployment", Name := "other",
                          UID := "uid-9", Controller := true, BlockOwnerDeletion := true }] }

/-- Sample owner living in `ns1`. -/
def ownerNs1 : SampleOwner := { Namespace := "ns1", Name := "operator", UID := "uid-1" }

/-- Sample owner living in `ns2`. -/
def ownerNs2 : SampleOwner := { Namespace := "ns2", Name := "operator", UID := "uid-2" }

/-- Sample scheme resolving owners to `apps/v1 Deployment`. -/
def deploymentScheme : SampleScheme := some ⟨"apps", "v1", "Deployment"⟩

/-- A client without owner binding, over the given store client and merger. -/
def plainClient (k : StoreClient MemStore) (m : Option Merger) :
    Client SampleOwner SampleScheme Unit MemStore :=
  { applier := (), client := some k, owner := none, scheme := none, merger := m }

/-- A client with owner binding, over the given store client and merger. -/
def ownedClient (k : StoreClient MemStore) (o : SampleOwner) (m : Option Merger) :
    Client SampleOwner SampleScheme Unit MemStore :=
  { applier := (), client := some k, owner := some o, scheme := deploymentScheme,
    merger := m }

/-- Three sample assets: the second lives in `ns2`. -/
def threeAssets : List Unstructured := [cfgA "v1", cfgX, cfgC]

/-- A client with an owner in `ns1` over the in-memory store. -/
def threeAssetsClient : Client SampleOwner SampleScheme Unit MemStore :=
  ownedClient memClient ownerNs1 (some replaceIfDifferent)

/-! ## Auxiliary facts -/

section Auxiliary

variable {Owner Scheme Applier σ : Type}

theorem creates_append (a b : List Call) : creates (a ++ b) = creates a ++ creates b := by
  induction a with
  | nil => rfl
  | cons x xs ih => cases x <;> simp [creates, ih]

theorem updates_append (a b : List Call) : updates (a ++ b) = updates a ++ updates b := by
  induction a with
  | nil => rfl
  | cons x xs ih => cases x <;> simp [updates, ih]

theorem mergerDesired_append (a b : List Call) :
    mergerDesired (a ++ b) = mergerDesired a ++ mergerDesired b := by
  induction a with
  | nil => rfl
  | cons x xs ih => cases x <;> simp [mergerDesired, ih]

theorem writes_append (a b : List Call) : writes (a ++ b) = writes a ++ writes b := by
  simp [writes]

/-- The controller-reference step issues either no call or the single call
`SetControllerReference u`. -/
theorem setControllerRef_calls (d : Deps Owner Scheme Applier)
    (c : Client Owner Scheme Applier σ) (u : Unstructured) :
    (setControllerRef d c u).1 = [] ∨
      (setControllerRef d c u).1 = [Call.SetControllerReference u] := by
  unfold setControllerRef
  split
  · split <;> simp
  · simp

/-- When either owner or scheme is nil the controller-reference step does
nothing. -/
theorem setControllerRef_unconfigured (d : Deps Owner Scheme Applier)
    (c : Client Owner Scheme Applier σ) (u : Unstructured)
    (h : c.owner = none ∨ c.scheme = none) :
    setControllerRef d c u = ([], .ok u) := by
  unfold setControllerRef
  split
  · rename_i o sch ho hs
    rcases h with h | h
    · rw [h] at ho; cases ho
    · rw [h] at hs; cases hs
  · rfl

/-- When owner and scheme are both set the step is the library call. -/
theorem setControllerRef_configured (d : Deps Owner Scheme Applier)
    (c : Client Owner Scheme Applier σ) (u : Unstructured) (o : Owner) (sch : Scheme)
    (ho : c.owner = some o) (hs : c.scheme = some sch) :
    setControllerRef d c u =
      ([Call.SetControllerReference u], d.SetControllerReference o u sch) := by
  unfold setControllerRef
  rw [ho, hs]
  simp only
  cases d.SetControllerReference o u sch <;> rfl

/-- After a successful controller-reference step, `createOrUpdate` is the
lookup-and-write part run on the object that step left. -/
theorem createOrUpdate_of_bound (d : Deps Owner Scheme Applier)
    (c : Client Owner Scheme Applier σ) (s : σ) (u u' : Unstructured)
    (h : (setControllerRef d c u).2 = .ok u') :
    createOrUpdate d c s u =
      ⟨(lookupAndWrite c s u').store,
        (setControllerRef d c u).1 ++ (lookupAndWrite c s u').calls,
        (lookupAndWrite c s u').ret⟩ := by
  unfold createOrUpdate
  rcases hb : setControllerRef d c u with ⟨cs, r⟩
  rw [hb] at h
  simp only at h
  subst h
  rfl

/-- After a failed controller-reference step, `createOrUpdate` returns the
step's error at once. -/
theorem createOrUpdate_of_bind_error (d : Deps Owner Scheme Applier)
    (c : Client Owner Scheme Applier σ) (s : σ) (u : Unstructured) (e : Err)
    (h : (setControllerRef d c u).2 = .error e) :
    createOrUpdate d c s u = ⟨s, (setControllerRef d c u).1, Ret.err e⟩ := by
  unfold createOrUpdate
  rcases hb : setControllerRef d c u with ⟨cs, r⟩
  rw [hb] at h
  simp only at h
  subst h
  rfl

theorem setControllerRef_creates (d : Deps Owner Scheme Applier)
    (c : Client Owner Scheme Applier σ) (u : Unstructured) :
    creates (setControllerRef d c u).1 = [] := by
  rcases setControllerRef_calls d c u with h | h <;> rw [h] <;> rfl

theorem setControllerRef_updates (d : Deps Owner Scheme Applier)
    (c : Client Owner Scheme Applier σ) (u : Unstructured) :
    updates (setControllerRef d c u).1 = [] := by
  rcases setControllerRef_calls d c u with h | h <;> rw [h] <;> rfl

theorem setControllerRef_mergerDesired (d : Deps Owner Scheme Applier)
    (c : Client Owner Scheme Applier σ) (u : Unstructured) :
    mergerDesired (setControllerRef d c u).1 = [] := by
  rcases setControllerRef_calls d c u with h | h <;> rw [h] <;> rfl

theorem setControllerRef_writes (d : Deps Owner Scheme Applier)
    (c : Client Owner Scheme Applier σ) (u : Unstructured) :
    writes (setControllerRef d c u).1 = [] := by
  rcases setControllerRef_calls d c u with h | h <;> rw [h] <;> rfl

/-- The lookup-and-write part when the lookup reports not-found. -/
theorem lookupAndWrite_not_found (c : Client Owner Scheme Applier σ) (k : StoreClient σ)
    (s : σ) (u : Unstructured) (e : Err) (hk : c.client = some k)
    (hget : k.Get s u.GroupVersionKind u.key = .error e) (hnf : IsNotFound e = true) :
    lookupAndWrite c s u =
      ⟨(k.Create s u).1, [Call.Get u.GroupVersionKind u.key, Call.Create u],
        match (k.Create s u).2 with
        | some err => Ret.err err
        | none => Ret.nil⟩ := by
  unfold lookupAndWrite
  rw [hk]
  simp only [hget, hnf, if_true]
  rcases k.Create s u with ⟨s', _ | err⟩ <;> rfl

/-- The lookup-and-write part when the lookup fails otherwise. -/
theorem lookupAndWrite_get_error (c : Client Owner Scheme Applier σ) (k : StoreClient σ)
    (s : σ) (u : Unstructured) (e : Err) (hk : c.client = some k)
    (hget : k.Get s u.GroupVersionKind u.key = .error e) (hnf : IsNotFound e = false) :
    lookupAndWrite c s u = ⟨s, [Call.Get u.GroupVersionKind u.key], Ret.err e⟩ := by
  unfold lookupAndWrite
  rw [hk]
  simp [hget, hnf]

/-- The lookup-and-write part when the object exists and the merger asks for
an update. -/
theorem lookupAndWrite_update (c : Client Owner Scheme Applier σ) (k : StoreClient σ)
    (m : Merger) (s : σ) (u current future : Unstructured)
    (hk : c.client = some k) (hm : c.merger = some m)
    (hget : k.Get s u.GroupVersionKind u.key = .ok current)
    (hmerge : m current u = (future, true)) :
    lookupAndWrite c s u =
      ⟨(k.Update s future).1,
        [Call.Get u.GroupVersionKind u.key, Call.Merger current u, Call.Update future],
        match (k.Update s future).2 with
        | some err => Ret.err err
        | none => Ret.nil⟩ := by
  unfold lookupAndWrite
  rw [hk]
  simp only [hget, hm, hmerge]
  rcases k.Update s future with ⟨s', _ | err⟩ <;> rfl

/-- The lookup-and-write part when the object exists and the merger asks for
no update. -/
theorem lookupAndWrite_no_update (c : Client Owner Scheme Applier σ) (k : StoreClient σ)
    (m : Merger) (s : σ) (u current : Unstructured)
    (hk : c.client = some k) (hm : c.merger = some m)
    (hget : k.Get s u.GroupVersionKind u.key = .ok current)
    (hmerge : (m current u).2 = false) :
    lookupAndWrite c s u =
      ⟨s, [Call.Get u.GroupVersionKind u.key, Call.Merger current u], Ret.nil⟩ := by
  unfold lookupAndWrite
  rw [hk]
  simp only [hget, hm]
  rcases hmu : m current u with ⟨future, b⟩
  rw [hmu] at hmerge
  simp only at hmerge
  subst hmerge
  rfl

/-- The lookup-and-write part never issues the controller-reference call. -/
theorem lookupAndWrite_no_setControllerReference (c : Client Owner Scheme Applier σ)
    (s : σ) (u : Unstructured) :
    ∀ x ∈ (lookupAndWrite c s u).calls, x.isSetControllerReference = false := by
  unfold lookupAndWrite
  intro x hx
  repeat' split at hx
  all_goals simp at hx
  all_goals
    first
    | (rcases hx with h | h | h <;> subst h <;> rfl)
    | (rcases hx with h | h <;> subst h <;> rfl)
    | (subst hx; rfl)

/-- Every `Create` of the lookup-and-write part has the object itself as its
argument and follows a not-found lookup. -/
theorem lookupAndWrite_creates (c : Client Owner Scheme Applier σ)
    (s : σ) (u x : Unstructured) (hx : x ∈ creates (lookupAndWrite c s u).calls) :
    x = u ∧ ∃ k e, c.client = some k ∧
      k.Get s u.GroupVersionKind u.key = .error e ∧ IsNotFound e = true := by
  unfold lookupAndWrite at hx
  split at hx
  · simp [creates] at hx
  · rename_i k hk
    simp only at hx
    split at hx
    · rename_i e hget
      split at hx
      · rename_i hnf
        refine ⟨?_, k, e, hk, hget, hnf⟩
        split at hx <;> simpa [creates] using hx
      · simp [creates] at hx
    · repeat' split at hx
      all_goals simp [creates] at hx

/-- Every merger invocation of the lookup-and-write part has the looked-up
object as `current` and the object itself as `new`. -/
theorem lookupAndWrite_merger (c : Client Owner Scheme Applier σ)
    (s : σ) (u current new : Unstructured)
    (hx : Call.Merger current new ∈ (lookupAndWrite c s u).calls) :
    new = u ∧ ∃ k, c.client = some k ∧
      k.Get s u.GroupVersionKind u.key = .ok current := by
  unfold lookupAndWrite at hx
  split at hx
  · simp at hx
  · rename_i k hk
    simp only at hx
    split at hx
    · repeat' split at hx
      all_goals simp at hx
    · rename_i cur hget
      repeat' split at hx
      all_goals simp at hx
      all_goals exact ⟨hx.2, k, hk, by rw [hget, hx.1]⟩

end Auxiliary

/-! ## The create, update and no-op paths -/

section Paths

variable {Owner Scheme Applier σ : Type}

/-- C1 (create path): when the controller-reference step, if configured,
succeeds and leaves the object `u'` (which is `u` itself when no owner or no
scheme is configured), and `Get` on the identity of that object returns a
not-found error, then `createOrUpdate` issues exactly one `Create`, with that
object as argument, and no `Update`, whatever `Create` returns. -/
theorem createOrUpdate_absent_one_create (d : Deps Owner Scheme Applier)
    (c : Client Owner Scheme Applier σ) (k : StoreClient σ) (s : σ)
    (u u' : Unstructured) (e : Err)
    (hbind : (setControllerRef d c u).2 = .ok u')
    (hk : c.client = some k)
    (hget : k.Get s u'.GroupVersionKind u'.key = .error e)
    (hnf : IsNotFound e = true) :
    creates (createOrUpdate d c s u).calls = [u'] ∧
    updates (createOrUpdate d c s u).calls = [] ∧
    writes (createOrUpdate d c s u).calls = [Call.Create u'] ∧
    ((c.owner = none ∨ c.scheme = none) → u' = u) := by
  rw [createOrUpdate_of_bound d c s u u' hbind,
    lookupAndWrite_not_found c k s u' e hk hget hnf]
  refine ⟨?_, ?_, ?_, ?_⟩
  · simp [creates_append, setControllerRef_creates, creates]
  · simp [updates_append, setControllerRef_updates, updates]
  · simp only [writes_append, setControllerRef_writes]
    rfl
  · intro h
    rw [setControllerRef_unconfigured d c u h] at hbind
    simp only [Except.ok.injEq] at hbind
    exact hbind.symm

/-- C1, at a concrete input: `cfg-a` against the empty in-memory store. -/
theorem createOrUpdate_absent_one_create_witness :
    creates (createOrUpdate sampleDeps (ownedClient memClient ownerNs1
        (some replaceIfDifferent)) [] (cfgA "v1")).calls
      = [{ cfgA "v1" with OwnerReferences := [sampleRef ownerNs1 ⟨"apps", "v1", "Deployment"⟩] }] ∧
    updates (createOrUpdate sampleDeps (ownedClient memClient ownerNs1
        (some replaceIfDifferent)) [] (cfgA "v1")).calls = [] :=
  have h := createOrUpdate_absent_one_create sampleDeps
    (ownedClient memClient ownerNs1 (some replaceIfDifferent)) memClient [] (cfgA "v1")
    { cfgA "v1" with OwnerReferences := [sampleRef ownerNs1 ⟨"apps", "v1", "Deployment"⟩] }
    ⟨StatusReason.NotFound, "not found"⟩ rfl rfl rfl (by decide)
  ⟨h.1, h.2.1⟩

/-- C2 (update path): when the controller-reference step, if configured,
succeeds and leaves the object `u'`, `Get` on its identity succeeds with
`current`, and the merger returns `(future, true)` on `(current, u')`, then
`createOrUpdate` issues exactly one `Update`, whose argument is exactly
`future`, and no `Create`. -/
theorem createOrUpdate_present_one_update (d : Deps Owner Scheme Applier)
    (c : Client Owner Scheme Applier σ) (k : StoreClient σ) (m : Merger) (s : σ)
    (u u' current future : Unstructured)
    (hbind : (setControllerRef d c u).2 = .ok u')
    (hk : c.client = some k) (hm : c.merger = some m)
    (hget : k.Get s u'.GroupVersionKind u'.key = .ok current)
    (hmerge : m current u' = (future, true)) :
    updates (createOrUpdate d c s u).calls = [future] ∧
    creates (createOrUpdate d c s u).calls = [] ∧
    writes (createOrUpdate d c s u).calls = [Call.Update future] := by
  rw [createOrUpdate_of_bound d c s u u' hbind,
    lookupAndWrite_update c k m s u' current future hk hm hget hmerge]
  refine ⟨?_, ?_, ?_⟩
  · simp [updates_append, setControllerRef_updates, updates]
  · simp [creates_append, setControllerRef_creates, creates]
  · simp only [writes_append, setControllerRef_writes]
    rfl

/-- C2, at a concrete input: `cfg-a` with payload `v2` against a store that
holds it with payload `v1`. -/
theorem createOrUpdate_present_one_update_witness :
    updates (createOrUpdate sampleDeps (plainClient memClient (some replaceIfDifferent))
        [cfgA "v1"] (cfgA "v2")).calls = [cfgA "v2"] ∧
    creates (createOrUpdate sampleDeps (plainClient memClient (some replaceIfDifferent))
        [cfgA "v1"] (cfgA "v2")).calls = [] :=
  have h := createOrUpdate_present_one_update sampleDeps
    (plainClient memClient (some replaceIfDifferent)) memClient replaceIfDifferent
    [cfgA "v1"] (cfgA "v2") (cfgA "v2") (cfgA "v1") (cfgA "v2")
    rfl rfl rfl rfl (by decide)
  ⟨h.1, h.2.1⟩

/-- C3 (no-op path): if the merger is invoked, on `(current, new)`, and
returns `update = false` there, then `createOrUpdate` issues no write call
(neither `Create` nor `Update`), leaves the store as it was and returns
nil. -/
theorem createOrUpdate_no_update_no_write (d : Deps Owner Scheme Applier)
    (c : Client Owner Scheme Applier σ) (m : Merger) (s : σ)
    (u current new : Unstructured)
    (hm : c.merger = some m)
    (hin : Call.Merger current new ∈ (createOrUpdate d c s u).calls)
    (hfalse : (m current new).2 = false) :
    writes (createOrUpdate d c s u).calls = [] ∧
    creates (createOrUpdate d c s u).calls = [] ∧
    updates (createOrUpdate d c s u).calls = [] ∧
    (createOrUpdate d c s u).store = s ∧
    (createOrUpdate d c s u).ret = Ret.nil := by
  rcases hb : (setControllerRef d c u).2 with e | u'
  · rw [createOrUpdate_of_bind_error d c s u e hb] at hin
    simp only at hin
    rcases setControllerRef_calls d c u with h | h <;> rw [h] at hin <;> simp at hin
  · rw [createOrUpdate_of_bound d c s u u' hb] at hin ⊢
    simp only [List.mem_append] at hin
    have hin' : Call.Merger current new ∈ (lookupAndWrite c s u').calls := by
      rcases hin with h | h
      · rcases setControllerRef_calls d c u with h' | h' <;> rw [h'] at h <;> simp at h
      · exact h
    obtain ⟨hnew, k, hk, hget⟩ := lookupAndWrite_merger c s u' current new hin'
    subst hnew
    rw [lookupAndWrite_no_update c k m s new current hk hm hget hfalse]
    refine ⟨?_, ?_, ?_, rfl, rfl⟩
    · simp only [writes_append, setControllerRef_writes]
      rfl
    · simp [creates_append, setControllerRef_creates, creates]
    · simp [updates_append, setControllerRef_updates, updates]

/-- C3, at a concrete input: the store already holds `cfg-a` as desired. -/
theorem createOrUpdate_no_update_no_write_witness :
    writes (createOrUpdate sampleDeps (plainClient memClient (some replaceIfDifferent))
        [cfgA "v1"] (cfgA "v1")).calls = [] ∧
    (createOrUpdate sampleDeps (plainClient memClient (some replaceIfDifferent))
        [cfgA "v1"] (cfgA "v1")).store = [cfgA "v1"] ∧
    (createOrUpdate sampleDeps (plainClient memClient (some replaceIfDifferent))
        [cfgA "v1"] (cfgA "v1")).ret = Ret.nil :=
  have h := createOrUpdate_no_update_no_write sampleDeps
    (plainClient memClient (some replaceIfDifferent)) replaceIfDifferent
    [cfgA "v1"] (cfgA "v1") (cfgA "v1") (cfgA "v1") rfl (by decide) (by decide)
  ⟨h.1, h.2.2.2.1, h.2.2.2.2⟩

end Paths

/-! ## The controller-reference step and the lookup errors -/

section Errors

variable {Owner Scheme Applier σ : Type}

/-- C8 (binding failure): when owner and scheme are both configured and
`SetControllerReference` fails on `u` with error `e`, `createOrUpdate`
returns `e`, its only call is that `SetControllerReference`: no `Get`, no
`Create`, no `Update`, no merger invocation; and the store is unchanged. -/
theorem createOrUpdate_bind_failure_aborts (d : Deps Owner Scheme Applier)
    (c : Client Owner Scheme Applier σ) (s : σ) (u : Unstructured)
    (o : Owner) (sch : Scheme) (e : Err)
    (ho : c.owner = some o) (hs : c.scheme = some sch)
    (hfail : d.SetControllerReference o u sch = .error e) :
    (createOrUpdate d c s u).ret = Ret.err e ∧
    (createOrUpdate d c s u).calls = [Call.SetControllerReference u] ∧
    (createOrUpdate d c s u).calls.filter Call.isStoreOp = [] ∧
    (createOrUpdate d c s u).calls.filter Call.isMerger = [] ∧
    (createOrUpdate d c s u).store = s := by
  have hb : setControllerRef d c u = ([Call.SetControllerReference u], .error e) := by
    rw [setControllerRef_configured d c u o sch ho hs, hfail]
  have h2 : (setControllerRef d c u).2 = .error e := by rw [hb]
  rw [createOrUpdate_of_bind_error d c s u e h2, hb]
  exact ⟨rfl, rfl, rfl, rfl, rfl⟩

/-- C8, at a concrete input: an owner in `ns2` for an object in `ns1`. -/
theorem createOrUpdate_bind_failure_aborts_witness :
    (createOrUpdate sampleDeps (ownedClient memClient ownerNs2 (some replaceIfDifferent))
        [] (cfgA "v1")).ret
      = Ret.err ⟨StatusReason.Invalid, "cross-namespace owner references are disallowed"⟩ ∧
    (createOrUpdate sampleDeps (ownedClient memClient ownerNs2 (some replaceIfDifferent))
        [] (cfgA "v1")).calls = [Call.SetControllerReference (cfgA "v1")] ∧
    (createOrUpdate sampleDeps (ownedClient memClient ownerNs2 (some replaceIfDifferent))
        [] (cfgA "v1")).store = [] :=
  have h := createOrUpdate_bind_failure_aborts sampleDeps
    (ownedClient memClient ownerNs2 (some replaceIfDifferent)) [] (cfgA "v1")
    ownerNs2 (some ⟨"apps", "v1", "Deployment"⟩)
    ⟨StatusReason.Invalid, "cross-namespace owner references are disallowed"⟩
    rfl rfl rfl
  ⟨h.1, h.2.1, h.2.2.2.2⟩

/-- C9 (binding is optional): `createOrUpdate` calls `SetControllerReference`
if and only if owner and scheme are both non-nil.  If either is nil, the run
is exactly the lookup-and-write part on `u` as received: the lookup (with a
non-nil store client) is the first call and is made on the identity of `u`,
every `Create` and every merger invocation receives `u` itself, and no call
to `SetControllerReference` is there to fail. -/
theorem createOrUpdate_binds_iff_configured (d : Deps Owner Scheme Applier)
    (c : Client Owner Scheme Applier σ) (s : σ) (u : Unstructured) :
    ((∃ x ∈ (createOrUpdate d c s u).calls, x.isSetControllerReference = true) ↔
      (c.owner.isSome = true ∧ c.scheme.isSome = true)) ∧
    ((c.owner = none ∨ c.scheme = none) →
      createOrUpdate d c s u = lookupAndWrite c s u ∧
      (∀ x ∈ (createOrUpdate d c s u).calls, x.isSetControllerReference = false) ∧
      (∀ k, c.client = some k →
        (createOrUpdate d c s u).calls.head? = some (Call.Get u.GroupVersionKind u.key)) ∧
      (∀ x ∈ creates (createOrUpdate d c s u).calls, x = u) ∧
      (∀ x ∈ mergerDesired (createOrUpdate d c s u).calls, x = u)) := by
  have hun : (c.owner = none ∨ c.scheme = none) →
      createOrUpdate d c s u = lookupAndWrite c s u := by
    intro h
    have hb := setControllerRef_unconfigured d c u h
    have h2 : (setControllerRef d c u).2 = .ok u := by rw [hb]
    rw [createOrUpdate_of_bound d c s u u h2, hb]
    simp
  constructor
  · constructor
    · rintro ⟨x, hx, hxs⟩
      by_contra hcon
      have hnone : c.owner = none ∨ c.scheme = none := by
        cases ho : c.owner <;> cases hs : c.scheme <;> simp_all
      rw [hun hnone] at hx
      have := lookupAndWrite_no_setControllerReference c s u x hx
      rw [this] at hxs
      cases hxs
    · rintro ⟨ho, hs⟩
      obtain ⟨o, ho⟩ := Option.isSome_iff_exists.mp ho
      obtain ⟨sch, hs⟩ := Option.isSome_iff_exists.mp hs
      have hb := setControllerRef_configured d c u o sch ho hs
      refine ⟨Call.SetControllerReference u, ?_, rfl⟩
      rcases hr : d.SetControllerReference o u sch with e | u'
      · have h2 : (setControllerRef d c u).2 = .error e := by rw [hb, hr]
        rw [createOrUpdate_of_bind_error d c s u e h2, hb]
        simp
      · have h2 : (setControllerRef d c u).2 = .ok u' := by rw [hb, hr]
        rw [createOrUpdate_of_bound d c s u u' h2, hb]
        simp
  · intro h
    refine ⟨hun h, ?_, ?_, ?_, ?_⟩
    · rw [hun h]
      exact lookupAndWrite_no_setControllerReference c s u
    · intro k hk
      rw [hun h]
      unfold lookupAndWrite
      rw [hk]
      simp only
      repeat' split
      all_goals rfl
    · intro x hx
      rw [hun h] at hx
      exact (lookupAndWrite_creates c s u x hx).1
    · intro x hx
      rw [hun h] at hx
      unfold lookupAndWrite at hx
      repeat' split at hx
      all_goals simp [mergerDesired] at hx
      all_goals exact hx

/-- C9, at a concrete input: a client without owner and scheme creates `cfg-a`
exactly as received. -/
theorem createOrUpdate_binds_iff_configured_witness :
    (createOrUpdate sampleDeps (plainClient memClient (some replaceIfDifferent))
        [] (cfgA "v1")).calls.head?
      = some (Call.Get ⟨"", "v1", "ConfigMap"⟩ ⟨"ns1", "cfg-a"⟩) ∧
    (∀ x ∈ creates (createOrUpdate sampleDeps
        (plainClient memClient (some replaceIfDifferent)) [] (cfgA "v1")).calls,
      x = cfgA "v1") :=
  have h := (createOrUpdate_binds_iff_configured sampleDeps
    (plainClient memClient (some replaceIfDifferent)) [] (cfgA "v1")).2 (Or.inl rfl)
  ⟨h.2.2.1 memClient rfl, h.2.2.2.1⟩

/-- C10 (lookup errors): after a controller-reference step that, if
configured, succeeded and left `u'`, a `Get` that fails with an error other
than not-found makes `createOrUpdate` return that same error, issue neither
`Create` nor `Update`, not invoke the merger, and leave the store unchanged.
And whenever `createOrUpdate` issues a `Create`, its `Get` had returned a
not-found error. -/
theorem createOrUpdate_get_error_aborts (d : Deps Owner Scheme Applier)
    (c : Client Owner Scheme Applier σ) (s : σ) (u : Unstructured) :
    (∀ (k : StoreClient σ) (u' : Unstructured) (e : Err),
      (setControllerRef d c u).2 = .ok u' → c.client = some k →
      k.Get s u'.GroupVersionKind u'.key = .error e → IsNotFound e = false →
        (createOrUpdate d c s u).ret = Ret.err e ∧
        creates (createOrUpdate d c s u).calls = [] ∧
        updates (createOrUpdate d c s u).calls = [] ∧
        writes (createOrUpdate d c s u).calls = [] ∧
        (createOrUpdate d c s u).calls.filter Call.isMerger = [] ∧
        (createOrUpdate d c s u).store = s) ∧
    (∀ x ∈ creates (createOrUpdate d c s u).calls,
      ∃ (k : StoreClient σ) (u' : Unstructured) (e : Err),
        (setControllerRef d c u).2 = .ok u' ∧ c.client = some k ∧
        k.Get s u'.GroupVersionKind u'.key = .error e ∧ IsNotFound e = true) := by
  constructor
  · intro k u' e hbind hk hget hnf
    rw [createOrUpdate_of_bound d c s u u' hbind,
      lookupAndWrite_get_error c k s u' e hk hget hnf]
    refine ⟨rfl, ?_, ?_, ?_, ?_, rfl⟩
    · simp [creates_append, setControllerRef_creates, creates]
    · simp [updates_append, setControllerRef_updates, updates]
    · simp only [writes_append, setControllerRef_writes]
      rfl
    · rcases setControllerRef_calls d c u with h | h <;> rw [h] <;> rfl
  · intro x hx
    rcases hb : (setControllerRef d c u).2 with e | u'
    · rw [createOrUpdate_of_bind_error d c s u e hb] at hx
      simp only [setControllerRef_creates] at hx
      cases hx
    · rw [createOrUpdate_of_bound d c s u u' hb] at hx
      simp only [creates_append, setControllerRef_creates, List.nil_append] at hx
      obtain ⟨_, k, e, hk, hget, hnf⟩ := lookupAndWrite_creates c s u' x hx
      exact ⟨k, u', e, rfl, hk, hget, hnf⟩

/-- C10, at a concrete input: a store client whose lookups are forbidden. -/
theorem createOrUpdate_get_error_aborts_witness :
    (createOrUpdate sampleDeps (plainClient forbiddenClient (some replaceIfDifferent))
        [] (cfgA "v1")).ret = Ret.err ⟨StatusReason.Forbidden, "forbidden"⟩ ∧
    writes (createOrUpdate sampleDeps (plainClient forbiddenClient (some replaceIfDifferent))
        [] (cfgA "v1")).calls = [] ∧
    (createOrUpdate sampleDeps (plainClient forbiddenClient (some replaceIfDifferent))
        [] (cfgA "v1")).store = [] :=
  have h := (createOrUpdate_get_error_aborts sampleDeps
    (plainClient forbiddenClient (some replaceIfDifferent)) [] (cfgA "v1")).1
    forbiddenClient (cfgA "v1") ⟨StatusReason.Forbidden, "forbidden"⟩ rfl rfl rfl rfl
  ⟨h.1, h.2.2.2.1, h.2.2.2.2.2⟩

end Errors

/-! ## The batch driver -/

section Batch

variable {Owner Scheme Applier σ : Type}

theorem storeAfter_append (d : Deps Owner Scheme Applier)
    (c : Client Owner Scheme Applier σ) (s : σ) (a b : List Unstructured) :
    storeAfter d c s (a ++ b) = storeAfter d c (storeAfter d c s a) b := by
  induction a generalizing s with
  | nil => rfl
  | cons x xs ih => exact ih _

/-- What the loop does on a list: either it runs through, every resource
being reconciled, or it stops at the first resource whose reconciliation does
not return nil. -/
theorem rangeLoop_spec (d : Deps Owner Scheme Applier)
    (c : Client Owner Scheme Applier σ) (us : List Unstructured) (s : σ) :
    ((rangeLoop d c s us).ret = Ret.nil ∧ (rangeLoop d c s us).invoked = us ∧
        allReconciled d c s us ∧ (rangeLoop d c s us).store = storeAfter d c s us) ∨
    (∃ pre x post, us = pre ++ x :: post ∧
        (rangeLoop d c s us).invoked = pre ++ [x] ∧
        allReconciled d c s pre ∧
        (createOrUpdate d c (storeAfter d c s pre) x).ret ≠ Ret.nil ∧
        (rangeLoop d c s us).ret = (createOrUpdate d c (storeAfter d c s pre) x).ret ∧
        (rangeLoop d c s us).store = storeAfter d c s (pre ++ [x])) := by
  induction us generalizing s with
  | nil => exact Or.inl ⟨rfl, rfl, trivial, rfl⟩
  | cons u us ih =>
    rcases hr : (createOrUpdate d c s u).ret with _ | e | _
    · have hstep : rangeLoop d c s (u :: us) =
          ⟨(rangeLoop d c (createOrUpdate d c s u).store us).store,
            u :: (rangeLoop d c (createOrUpdate d c s u).store us).invoked,
            (createOrUpdate d c s u).calls ++
              (rangeLoop d c (createOrUpdate d c s u).store us).calls,
            (rangeLoop d c (createOrUpdate d c s u).store us).ret⟩ := by
        simp only [rangeLoop, hr]
      rw [hstep]
      rcases ih (createOrUpdate d c s u).store with
        ⟨h1, h2, h3, h4⟩ | ⟨pre, x, post, h1, h2, h3, h4, h5, h6⟩
      · exact Or.inl ⟨h1, by simp [h2], ⟨hr, h3⟩, h4⟩
      · refine Or.inr ⟨u :: pre, x, post, by simp [h1], by simp [h2], ⟨hr, h3⟩, h4, h5, ?_⟩
        simpa [storeAfter] using h6
    · refine Or.inr ⟨[], u, us, rfl, ?_, trivial, ?_, ?_, ?_⟩ <;>
        simp [rangeLoop, hr, storeAfter]
    · refine Or.inr ⟨[], u, us, rfl, ?_, trivial, ?_, ?_, ?_⟩ <;>
        simp [rangeLoop, hr, storeAfter]

/-- C5 (batch short-circuit): on the sequence `us` the template step
produced, `CreateOrUpdateInPath` either invokes `createOrUpdate` on every
resource of `us`, in order, each reconciliation returning nil, and returns
nil; or it invokes `createOrUpdate`, in order, exactly on the resources up to
and including the first one whose reconciliation does not return nil, on
none after it, and returns what that reconciliation returned.  In both cases
the store is the one those ordered invocations left. -/
theorem CreateOrUpdateInPath_stops_at_first_failure (d : Deps Owner Scheme Applier)
    (c : Client Owner Scheme Applier σ) (s : σ)
    (path : String) (excluded : List String) (recursive : Bool) (us : List Unstructured)
    (htmpl : d.TemplateAssetsInPathUnstructured c.applier path excluded recursive = .ok us) :
    ((CreateOrUpdateInPath d c s path excluded recursive).ret = Ret.nil ∧
        (CreateOrUpdateInPath d c s path excluded recursive).invoked = us ∧
        allReconciled d c s us ∧
        (CreateOrUpdateInPath d c s path excluded recursive).store = storeAfter d c s us) ∨
    (∃ pre x post, us = pre ++ x :: post ∧
        (CreateOrUpdateInPath d c s path excluded recursive).invoked = pre ++ [x] ∧
        allReconciled d c s pre ∧
        (createOrUpdate d c (storeAfter d c s pre) x).ret ≠ Ret.nil ∧
        (CreateOrUpdateInPath d c s path excluded recursive).ret =
          (createOrUpdate d c (storeAfter d c s pre) x).ret ∧
        (CreateOrUpdateInPath d c s path excluded recursive).store =
          storeAfter d c s (pre ++ [x])) := by
  have hrun : CreateOrUpdateInPath d c s path excluded recursive = rangeLoop d c s us := by
    simp only [CreateOrUpdateInPath, htmpl]
  rw [hrun]
  exact rangeLoop_spec d c us s

/-- C5, at a concrete input: of three resources the second, living in another
namespace than the owner, fails to bind; the third is never attempted. -/
theorem CreateOrUpdateInPath_stops_at_first_failure_witness :
    (CreateOrUpdateInPath (sampleDepsWith threeAssets) threeAssetsClient
        [] "assets" [] true).invoked = [cfgA "v1", cfgX] ∧
    (CreateOrUpdateInPath (sampleDepsWith threeAssets) threeAssetsClient
        [] "assets" [] true).ret
      = Ret.err ⟨StatusReason.Invalid, "cross-namespace owner references are disallowed"⟩ ∧
    (((CreateOrUpdateInPath (sampleDepsWith threeAssets) threeAssetsClient
          [] "assets" [] true).ret = Ret.nil ∧
      (CreateOrUpdateInPath (sampleDepsWith threeAssets) threeAssetsClient
          [] "assets" [] true).invoked = threeAssets ∧
      allReconciled (sampleDepsWith threeAssets) threeAssetsClient [] threeAssets ∧
      (CreateOrUpdateInPath (sampleDepsWith threeAssets) threeAssetsClient
          [] "assets" [] true).store
        = storeAfter (sampleDepsWith threeAssets) threeAssetsClient [] threeAssets) ∨
     (∃ pre x post, threeAssets = pre ++ x :: post ∧
      (CreateOrUpdateInPath (sampleDepsWith threeAssets) threeAssetsClient
          [] "assets" [] true).invoked = pre ++ [x] ∧
      allReconciled (sampleDepsWith threeAssets) threeAssetsClient [] pre ∧
      (createOrUpdate (sampleDepsWith threeAssets) threeAssetsClient
        (storeAfter (sampleDepsWith threeAssets) threeAssetsClient [] pre) x).ret ≠ Ret.nil ∧
      (CreateOrUpdateInPath (sampleDepsWith threeAssets) threeAssetsClient
          [] "assets" [] true).ret
        = (createOrUpdate (sampleDepsWith threeAssets) threeAssetsClient
            (storeAfter (sampleDepsWith threeAssets) threeAssetsClient [] pre) x).ret ∧
      (CreateOrUpdateInPath (sampleDepsWith threeAssets) threeAssetsClient
          [] "assets" [] true).store
        = storeAfter (sampleDepsWith threeAssets) threeAssetsClient [] (pre ++ [x]))) :=
  ⟨by decide, by decide,
    CreateOrUpdateInPath_stops_at_first_failure (sampleDepsWith threeAssets)
      threeAssetsClient [] "assets" [] true threeAssets rfl⟩

end Batch

/-! ## Construction and the owner reference -/

section Construction

variable {Owner Scheme Applier σ : Type}

/-- Every merger invocation of the lookup-and-write part receives the object
itself as the desired one. -/
theorem lookupAndWrite_mergerDesired (c : Client Owner Scheme Applier σ)
    (s : σ) (u : Unstructured) :
    ∀ x ∈ mergerDesired (lookupAndWrite c s u).calls, x = u := by
  intro x hx
  unfold lookupAndWrite at hx
  repeat' split at hx
  all_goals simp [mergerDesired] at hx
  all_goals exact hx

/-- Every `Update` of the lookup-and-write part carries what the merger
returned for the looked-up object and the object itself. -/
theorem lookupAndWrite_updates (c : Client Owner Scheme Applier σ)
    (s : σ) (u x : Unstructured) (hx : x ∈ updates (lookupAndWrite c s u).calls) :
    ∃ k m current, c.client = some k ∧ c.merger = some m ∧
      k.Get s u.GroupVersionKind u.key = .ok current ∧ m current u = (x, true) := by
  unfold lookupAndWrite at hx
  split at hx
  · simp [updates] at hx
  · rename_i k hk
    simp only at hx
    split at hx
    · repeat' split at hx
      all_goals simp [updates] at hx
    · rename_i current hget
      split at hx
      · simp [updates] at hx
      · rename_i m hm
        split at hx
        · rename_i future hmu
          have hxf : x = future := by
            split at hx <;> simpa [updates] using hx
          subst hxf
          exact ⟨k, m, current, hk, hm, hget, hmu⟩
        · simp [updates] at hx

/-- C6 fails on the code: `NewApplierClient` called with a nil merger returns
a client and a nil error, and a reconciliation by that client whose lookup
finds the object reaches the nil merger and panics. -/
theorem NewApplierClient_nil_merger_accepted :
    (NewApplierClient () (some memClient) none none none :
        Option (Client SampleOwner SampleScheme Unit MemStore) × Option Err).2 = none ∧
    (NewApplierClient () (some memClient) none none none :
        Option (Client SampleOwner SampleScheme Unit MemStore) × Option Err).1.isSome = true ∧
    (createOrUpdate sampleDeps (plainClient memClient none) [cfgA "v1"] (cfgA "v2")).ret
      = Ret.panic := by
  decide

/-- C6, amended: `NewApplierClient` never fails.  For every applier, client,
owner, scheme and merger, a nil merger included, it returns a nil error and a
client holding exactly the five values given.  With a nil merger, a
reconciliation whose controller-reference step succeeds and whose `Get`
finds the object reaches the merger call with the nil value: it panics,
having issued no write and left the store unchanged. -/
theorem NewApplierClient_never_fails (applier : Applier) (client : Option (StoreClient σ))
    (owner : Option Owner) (scheme : Option Scheme) (merger : Option Merger) :
    (NewApplierClient applier client owner scheme merger).2 = none ∧
    (NewApplierClient applier client owner scheme merger).1 =
      some { applier := applier, client := client, owner := owner, scheme := scheme,
             merger := merger } ∧
    (∀ (c : Client Owner Scheme Applier σ) (d : Deps Owner Scheme Applier)
        (k : StoreClient σ) (s : σ) (u u' current : Unstructured),
      (NewApplierClient applier client owner scheme none).1 = some c →
      (setControllerRef d c u).2 = .ok u' → c.client = some k →
      k.Get s u'.GroupVersionKind u'.key = .ok current →
        (createOrUpdate d c s u).ret = Ret.panic ∧
        writes (createOrUpdate d c s u).calls = [] ∧
        (createOrUpdate d c s u).store = s) := by
  refine ⟨rfl, rfl, ?_⟩
  intro c d k s u u' current hc hbind hk hget
  have hm : c.merger = none := by
    simp only [NewApplierClient, Option.some.injEq] at hc
    rw [← hc]
  have hl : lookupAndWrite c s u' =
      ⟨s, [Call.Get u'.GroupVersionKind u'.key], Ret.panic⟩ := by
    unfold lookupAndWrite
    rw [hk]
    simp only [hget, hm]
  rw [createOrUpdate_of_bound d c s u u' hbind, hl]
  refine ⟨rfl, ?_, rfl⟩
  simp only [writes_append, setControllerRef_writes]
  rfl

/-- C6 amended, at a concrete input: construction with a nil merger, then a
reconciliation of `cfg-a` against a store that holds it. -/
theorem NewApplierClient_never_fails_witness :
    (NewApplierClient () (some memClient) none none none :
        Option (Client SampleOwner SampleScheme Unit MemStore) × Option Err).2 = none ∧
    (createOrUpdate sampleDeps (plainClient memClient none) [cfgA "v1"] (cfgA "v2")).ret
      = Ret.panic ∧
    writes (createOrUpdate sampleDeps (plainClient memClient none)
      [cfgA "v1"] (cfgA "v2")).calls = [] :=
  have h := NewApplierClient_never_fails () (some memClient)
    (none : Option SampleOwner) (none : Option SampleScheme) none
  have h3 := h.2.2 (plainClient memClient none) sampleDeps memClient [cfgA "v1"]
    (cfgA "v2") (cfgA "v2") (cfgA "v1") rfl rfl rfl rfl
  ⟨h.1, h3.1, h3.2.1⟩

/-- C7 fails on the code: with owner and scheme configured and a merger that
keeps the live object's metadata, the object handed to the merger carries the
owner reference, and the one `Update` issued carries an object without any
owner reference. -/
theorem createOrUpdate_update_without_owner_reference :
    mergerDesired (createOrUpdate sampleDeps
        (ownedClient memClient ownerNs1 (some keepLiveMetadata)) [cfgA "v1"] (cfgA "v2")).calls
      = [{ cfgA "v2" with
            OwnerReferences := [sampleRef ownerNs1 ⟨"apps", "v1", "Deployment"⟩] }] ∧
    updates (createOrUpdate sampleDeps
        (ownedClient memClient ownerNs1 (some keepLiveMetadata)) [cfgA "v1"] (cfgA "v2")).calls
      = [cfgA "v2"] ∧
    (cfgA "v2").OwnerReferences = [] ∧
    ¬ (∀ x ∈ updates (createOrUpdate sampleDeps
        (ownedClient memClient ownerNs1 (some keepLiveMetadata)) [cfgA "v1"] (cfgA "v2")).calls,
        sampleRef ownerNs1 ⟨"apps", "v1", "Deployment"⟩ ∈ x.OwnerReferences) := by
  decide

/-- C7, amended: when owner and scheme are both configured and a successful
`SetControllerReference` on `u` leaves the reference `ref` on it, then the
desired object of every merger invocation and the argument of every `Create`
carry `ref`; the argument of every `Update` is what the merger returned for
the looked-up object and that bound object (it carries `ref` only if the
merger puts it there). -/
theorem createOrUpdate_owner_reference_handed_on (d : Deps Owner Scheme Applier)
    (c : Client Owner Scheme Applier σ) (s : σ) (u : Unstructured)
    (o : Owner) (sch : Scheme) (ref : OwnerReference)
    (ho : c.owner = some o) (hs : c.scheme = some sch)
    (hpost : ∀ u', d.SetControllerReference o u sch = .ok u' → ref ∈ u'.OwnerReferences) :
    (∀ x ∈ mergerDesired (createOrUpdate d c s u).calls, ref ∈ x.OwnerReferences) ∧
    (∀ x ∈ creates (createOrUpdate d c s u).calls, ref ∈ x.OwnerReferences) ∧
    (∀ x ∈ updates (createOrUpdate d c s u).calls,
      ∃ (k : StoreClient σ) (m : Merger) (current u' : Unstructured),
        d.SetControllerReference o u sch = .ok u' ∧ ref ∈ u'.OwnerReferences ∧
        c.client = some k ∧ c.merger = some m ∧
        k.Get s u'.GroupVersionKind u'.key = .ok current ∧ m current u' = (x, true)) := by
  have hb := setControllerRef_configured d c u o sch ho hs
  rcases hr : d.SetControllerReference o u sch with e | u'
  · have h2 : (setControllerRef d c u).2 = .error e := by rw [hb, hr]
    rw [createOrUpdate_of_bind_error d c s u e h2, hb]
    refine ⟨?_, ?_, ?_⟩ <;> intro x hx <;> simp [mergerDesired, creates, updates] at hx
  · have h2 : (setControllerRef d c u).2 = .ok u' := by rw [hb, hr]
    have href := hpost u' hr
    rw [createOrUpdate_of_bound d c s u u' h2]
    refine ⟨?_, ?_, ?_⟩
    · intro x hx
      simp only [mergerDesired_append, setControllerRef_mergerDesired, List.nil_append] at hx
      rw [lookupAndWrite_mergerDesired c s u' x hx]
      exact href
    · intro x hx
      simp only [creates_append, setControllerRef_creates, List.nil_append] at hx
      rw [(lookupAndWrite_creates c s u' x hx).1]
      exact href
    · intro x hx
      simp only [updates_append, setControllerRef_updates, List.nil_append] at hx
      obtain ⟨k, m, current, hk, hm, hget, hmu⟩ := lookupAndWrite_updates c s u' x hx
      exact ⟨k, m, current, u', rfl, href, hk, hm, hget, hmu⟩

/-- C7 amended, at a concrete input: the `Create` of `cfg-a` by a client with
an owner carries the owner's reference. -/
theorem createOrUpdate_owner_reference_handed_on_witness :
    (∀ x ∈ creates (createOrUpdate sampleDeps
        (ownedClient memClient ownerNs1 (some replaceIfDifferent)) [] (cfgA "v1")).calls,
      sampleRef ownerNs1 ⟨"apps", "v1", "Deployment"⟩ ∈ x.OwnerReferences) ∧
    creates (createOrUpdate sampleDeps
        (ownedClient memClient ownerNs1 (some replaceIfDifferent)) [] (cfgA "v1")).calls ≠ [] :=
  ⟨(createOrUpdate_owner_reference_handed_on sampleDeps
      (ownedClient memClient ownerNs1 (some replaceIfDifferent)) [] (cfgA "v1")
      ownerNs1 (some ⟨"apps", "v1", "Deployment"⟩)
      (sampleRef ownerNs1 ⟨"apps", "v1", "Deployment"⟩) rfl rfl
      (by
        intro u' h
        have hu : u' = { cfgA "v1" with
            OwnerReferences := [sampleRef ownerNs1 ⟨"apps", "v1", "Deployment"⟩] } := by
          have h0 : sampleDeps.SetControllerReference ownerNs1 (cfgA "v1")
              (some ⟨"apps", "v1", "Deployment"⟩) = .ok { cfgA "v1" with
            OwnerReferences := [sampleRef ownerNs1 ⟨"apps", "v1", "Deployment"⟩] } := rfl
          rw [h0] at h
          exact (Except.ok.inj h).symm
        rw [hu]
        exact List.mem_singleton.mpr rfl)).2.1,
    by decide⟩

end Construction

/-! ## Reconciling twice -/

section Twice

variable {Owner Scheme Applier σ : Type}

/-- The three ways a run of `createOrUpdate` can go, by its writes: none, and
then the store is untouched; one `Create` after a not-found lookup; or one
`Update` with the merger's object. -/
theorem createOrUpdate_cases (d : Deps Owner Scheme Applier)
    (c : Client Owner Scheme Applier σ) (s : σ) (u : Unstructured) :
    (writes (createOrUpdate d c s u).calls = [] ∧ (createOrUpdate d c s u).store = s) ∨
    (∃ (k : StoreClient σ) (u' : Unstructured) (e : Err),
        (setControllerRef d c u).2 = .ok u' ∧ c.client = some k ∧
        k.Get s u'.GroupVersionKind u'.key = .error e ∧ IsNotFound e = true ∧
        writes (createOrUpdate d c s u).calls = [Call.Create u'] ∧
        (createOrUpdate d c s u).store = (k.Create s u').1 ∧
        ((createOrUpdate d c s u).ret = Ret.nil → (k.Create s u').2 = none)) ∨
    (∃ (k : StoreClient σ) (m : Merger) (u' current future : Unstructured),
        (setControllerRef d c u).2 = .ok u' ∧ c.client = some k ∧ c.merger = some m ∧
        k.Get s u'.GroupVersionKind u'.key = .ok current ∧ m current u' = (future, true) ∧
        writes (createOrUpdate d c s u).calls = [Call.Update future] ∧
        (createOrUpdate d c s u).store = (k.Update s future).1 ∧
        ((createOrUpdate d c s u).ret = Ret.nil → (k.Update s future).2 = none)) := by
  rcases hb : (setControllerRef d c u).2 with e | u'
  · left
    rw [createOrUpdate_of_bind_error d c s u e hb]
    exact ⟨setControllerRef_writes d c u, rfl⟩
  · rw [createOrUpdate_of_bound d c s u u' hb]
    simp only [writes_append, setControllerRef_writes, List.nil_append]
    rcases hc : c.client with _ | k
    · left
      unfold lookupAndWrite
      rw [hc]
      exact ⟨rfl, rfl⟩
    · rcases hget : k.Get s u'.GroupVersionKind u'.key with e | current
      · cases hnf : IsNotFound e
        · left
          rw [lookupAndWrite_get_error c k s u' e hc hget hnf]
          exact ⟨rfl, rfl⟩
        · right; left
          refine ⟨k, u', e, rfl, rfl, hget, hnf, ?_⟩
          rw [lookupAndWrite_not_found c k s u' e hc hget hnf]
          refine ⟨rfl, rfl, ?_⟩
          intro h
          rcases hcr : (k.Create s u').2 with _ | err
          · rfl
          · rw [hcr] at h
            cases h
      · rcases hm : c.merger with _ | m
        · left
          have hl : lookupAndWrite c s u' =
              ⟨s, [Call.Get u'.GroupVersionKind u'.key], Ret.panic⟩ := by
            unfold lookupAndWrite
            rw [hc]
            simp only [hget, hm]
          rw [hl]
          exact ⟨rfl, rfl⟩
        · rcases hmu : m current u' with ⟨future, b⟩
          cases b
          · left
            have h2 : (m current u').2 = false := by rw [hmu]
            rw [lookupAndWrite_no_update c k m s u' current hc hm hget h2]
            exact ⟨rfl, rfl⟩
          · right; right
            refine ⟨k, m, u', current, future, rfl, rfl, rfl, hget, hmu, ?_⟩
            rw [lookupAndWrite_update c k m s u' current future hc hm hget hmu]
            refine ⟨rfl, rfl, ?_⟩
            intro h
            rcases hup : (k.Update s future).2 with _ | err
            · rfl
            · rw [hup] at h
              cases h

/-- One run of `createOrUpdate` issues at most one write. -/
theorem createOrUpdate_writes_le_one (d : Deps Owner Scheme Applier)
    (c : Client Owner Scheme Applier σ) (s : σ) (u : Unstructured) :
    (writes (createOrUpdate d c s u).calls).length ≤ 1 := by
  rcases createOrUpdate_cases d c s u with
    ⟨h, _⟩ | ⟨_, _, _, _, _, _, _, h, _⟩ | ⟨_, _, _, _, _, _, _, _, _, _, h, _⟩ <;>
    rw [h] <;> simp

/-- In-memory store: after a successful `Create` the lookup finds the object. -/
theorem memGet_after_memCreate (s s' : MemStore) (x : Unstructured)
    (h : memCreate s x = (s', none)) :
    memGet s' x.GroupVersionKind x.key = .ok x := by
  unfold memCreate at h
  split at h
  · simp at h
  · simp only [Prod.mk.injEq, and_true] at h
    subst h
    simp [memGet, hasIdentity]

/-- Replacing every object of an identity by `x`, which has that identity,
makes the lookup return `x` when some object had the identity. -/
theorem find_after_replace (s : MemStore) (x r : Unstructured)
    (h : s.find? (hasIdentity x.GroupVersionKind x.key) = some r) :
    (s.map (fun r => if hasIdentity x.GroupVersionKind x.key r then x else r)).find?
      (hasIdentity x.GroupVersionKind x.key) = some x := by
  induction s with
  | nil => simp at h
  | cons y ys ih =>
    by_cases hy : hasIdentity x.GroupVersionKind x.key y = true
    · have hx : hasIdentity x.GroupVersionKind x.key x = true := by simp [hasIdentity]
      simp only [List.map_cons, hy, if_true, List.find?_cons, hx]
    · have hy' : hasIdentity x.GroupVersionKind x.key y = false := by simpa using hy
      rw [List.find?_cons, hy'] at h
      simp only [List.map_cons, hy', Bool.false_eq_true, if_false, List.find?_cons]
      exact ih h

/-- In-memory store: after a successful `Update` the lookup finds the object. -/
theorem memGet_after_memUpdate (s s' : MemStore) (x : Unstructured)
    (h : memUpdate s x = (s', none)) :
    memGet s' x.GroupVersionKind x.key = .ok x := by
  unfold memUpdate at h
  split at h
  · rename_i r hr
    simp only [Prod.mk.injEq, and_true] at h
    subst h
    unfold memGet
    rw [find_after_replace s x r hr]
  · simp at h

/-- C4 fails on the code, in two ways.  First: the merger `keepLiveMetadata`
returns `update = false` whenever current equals the desired resource, both
calls return nil on the in-memory store, and yet each of the two calls issues
one `Update`, because the object the merger writes is not the desired one.
Second: on a store that refuses writes, each of the two calls issues one
`Create`. -/
theorem createOrUpdate_twice_two_writes :
    ((∀ current new : Unstructured, current = new → (keepLiveMetadata current new).2 = false) ∧
      (createOrUpdate sampleDeps (plainClient memClient (some keepLiveMetadata))
        [cfgALive] (cfgA "v2")).ret = Ret.nil ∧
      writes (createOrUpdate sampleDeps (plainClient memClient (some keepLiveMetadata))
        [cfgALive] (cfgA "v2")).calls = [Call.Update { cfgALive with Data := [("k", "v2")] }] ∧
      writes (createOrUpdate sampleDeps (plainClient memClient (some keepLiveMetadata))
        (createOrUpdate sampleDeps (plainClient memClient (some keepLiveMetadata))
          [cfgALive] (cfgA "v2")).store (cfgA "v2")).calls
        = [Call.Update { cfgALive with Data := [("k", "v2")] }]) ∧
    ((∀ current new : Unstructured, current = new → (replaceIfDifferent current new).2 = false) ∧
      writes (createOrUpdate sampleDeps (plainClient readOnlyClient (some replaceIfDifferent))
        [] (cfgA "v1")).calls = [Call.Create (cfgA "v1")] ∧
      writes (createOrUpdate sampleDeps (plainClient readOnlyClient (some replaceIfDifferent))
        (createOrUpdate sampleDeps (plainClient readOnlyClient (some replaceIfDifferent))
          [] (cfgA "v1")).store (cfgA "v1")).calls = [Call.Create (cfgA "v1")]) := by
  refine ⟨⟨?_, by decide, by decide, by decide⟩, ⟨?_, by decide, by decide⟩⟩
  · intro current new h
    simp [keepLiveMetadata, h]
  · intro current new h
    simp [replaceIfDifferent, h]

/-- C4, amended: let `equiv` be a transitive equivalence of resources such
that the merger returns `update = false` whenever current is equivalent to
the desired resource, the object the merger asks to write has the desired
resource's identity and is equivalent to it, and the store, after a
successful `Create` or `Update` of an object, returns on lookup an object
equivalent to it.  If the write of the first `createOrUpdate(u)`, when it
issues one, succeeds, then the first call issues at most one write (one
`Create` or one `Update`) and a second `createOrUpdate(u)` on the store the
first one left issues no write and leaves that store unchanged: at most one
write in total. -/
theorem createOrUpdate_twice_at_most_one_write (d : Deps Owner Scheme Applier)
    (c : Client Owner Scheme Applier σ) (k : StoreClient σ) (m : Merger) (s : σ)
    (u : Unstructured) (equiv : Unstructured → Unstructured → Prop)
    (hk : c.client = some k) (hm : c.merger = some m)
    (htrans : ∀ a b x, equiv a b → equiv b x → equiv a x)
    (hdetect : ∀ current new, equiv current new → (m current new).2 = false)
    (hfuture : ∀ current new, (m current new).2 = true →
      (m current new).1.GroupVersionKind = new.GroupVersionKind ∧
      (m current new).1.key = new.key ∧ equiv (m current new).1 new)
    (hcreate : ∀ s x s', k.Create s x = (s', none) →
      ∃ current, k.Get s' x.GroupVersionKind x.key = .ok current ∧ equiv current x)
    (hupdate : ∀ s x s', k.Update s x = (s', none) →
      ∃ current, k.Get s' x.GroupVersionKind x.key = .ok current ∧ equiv current x)
    (hfirst : writes (createOrUpdate d c s u).calls ≠ [] →
      (createOrUpdate d c s u).ret = Ret.nil) :
    (writes (createOrUpdate d c s u).calls).length ≤ 1 ∧
    writes (createOrUpdate d c (createOrUpdate d c s u).store u).calls = [] ∧
    (createOrUpdate d c (createOrUpdate d c s u).store u).store
      = (createOrUpdate d c s u).store ∧
    (writes (createOrUpdate d c s u).calls).length +
      (writes (createOrUpdate d c (createOrUpdate d c s u).store u).calls).length ≤ 1 := by
  have hone := createOrUpdate_writes_le_one d c s u
  have key : writes (createOrUpdate d c (createOrUpdate d c s u).store u).calls = [] ∧
      (createOrUpdate d c (createOrUpdate d c s u).store u).store
        = (createOrUpdate d c s u).store := by
    have hquiet : ∀ (s1 : σ) (u' current : Unstructured),
        (setControllerRef d c u).2 = .ok u' →
        k.Get s1 u'.GroupVersionKind u'.key = .ok current → equiv current u' →
        writes (createOrUpdate d c s1 u).calls = [] ∧ (createOrUpdate d c s1 u).store = s1 := by
      intro s1 u' current hbind hget heq
      rw [createOrUpdate_of_bound d c s1 u u' hbind,
        lookupAndWrite_no_update c k m s1 u' current hk hm hget (hdetect current u' heq)]
      refine ⟨?_, rfl⟩
      simp only [writes_append, setControllerRef_writes]
      rfl
    rcases createOrUpdate_cases d c s u with
      ⟨hw, hs⟩ | ⟨k', u', e, hbind, hk', hget, hnf, hw, hs, hret⟩ |
      ⟨k', m', u', current, future, hbind, hk', hm', hget, hmu, hw, hs, hret⟩
    · rw [hs]
      exact ⟨hw, hs⟩
    · have hkk : k' = k := by
        rw [hk] at hk'
        exact (Option.some.inj hk').symm
      subst hkk
      have hnil := hfirst (by rw [hw]; simp)
      have hc2 := hret hnil
      have hc : k'.Create s u' = ((createOrUpdate d c s u).store, none) := by
        rw [hs, ← hc2]
      obtain ⟨cur, hg, heq⟩ := hcreate s u' _ hc
      exact hquiet _ u' cur hbind hg heq
    · have hkk : k' = k := by
        rw [hk] at hk'
        exact (Option.some.inj hk').symm
      have hmm : m' = m := by
        rw [hm] at hm'
        exact (Option.some.inj hm').symm
      subst hkk
      subst hmm
      have hnil := hfirst (by rw [hw]; simp)
      have hu2 := hret hnil
      have hup : k'.Update s future = ((createOrUpdate d c s u).store, none) := by
        rw [hs, ← hu2]
      obtain ⟨cur, hg, heq⟩ := hupdate s future _ hup
      have hf := hfuture current u' (by rw [hmu])
      rw [hmu] at hf
      simp only at hf
      rw [hf.1, hf.2.1] at hg
      exact hquiet _ u' cur hbind hg (htrans cur future u' heq hf.2.2)
  refine ⟨hone, key.1, key.2, ?_⟩
  rw [key.1]
  simpa using hone

/-- C4 amended, at a concrete input: the overwrite merger on the in-memory
store, reconciling `cfg-a` with payload `v2` twice against a store that holds
it with payload `v1`: one `Update`, then nothing. -/
theorem createOrUpdate_twice_at_most_one_write_witness :
    writes (createOrUpdate sampleDeps (plainClient memClient (some replaceIfDifferent))
        [cfgA "v1"] (cfgA "v2")).calls = [Call.Update (cfgA "v2")] ∧
    writes (createOrUpdate sampleDeps (plainClient memClient (some replaceIfDifferent))
        (createOrUpdate sampleDeps (plainClient memClient (some replaceIfDifferent))
          [cfgA "v1"] (cfgA "v2")).store (cfgA "v2")).calls = [] :=
  ⟨by decide,
    (createOrUpdate_twice_at_most_one_write sampleDeps
      (plainClient memClient (some replaceIfDifferent)) memClient replaceIfDifferent
      [cfgA "v1"] (cfgA "v2") (fun a b => a = b) rfl rfl
      (fun _ _ _ h1 h2 => h1.trans h2)
      (fun current new h => by simp [replaceIfDifferent, h])
      (fun current new _ => ⟨rfl, rfl, rfl⟩)
      (fun s x s' h => ⟨x, memGet_after_memCreate s s' x h, rfl⟩)
      (fun s x s' h => ⟨x, memGet_after_memUpdate s s' x h, rfl⟩)
      (fun _ => by decide)).2.1⟩

end Twice

end Applier
